import Mathlib

set_option linter.unusedVariables false

namespace AspireTensor

/-! Shallow embedding of the Aspire-Full native tensor library
(`src/Aspire-Full.Tensor/Native/src/tensor_ops.cpp`).

Device floats are modelled as exact rationals, device buffers as total
functions from flat element indices, and a kernel launch as a left fold
of the per-thread kernel body over the list of global thread indices
produced by the grid/block decomposition used in the source.  The
allocation / metrics behaviour of the exported entry points is modelled
separately as explicit state passing over a `CudaState` record whose
allocation oracle decides which `cudaMalloc` calls succeed. -/

/-- Embeds the host stub `fmaxf` (tensor_ops.cpp line 15):
`x > y ? x : y`. -/
def fmaxf (x y : ℚ) : ℚ := if x > y then x else y

/-- Value computed by one `vectorAdd` thread (lines 33-36): the sum
`A[i] + B[i]` multiplied ten successive times by `1.001`. -/
def vectorAddVal (A B : ℕ → ℚ) (i : ℕ) : ℚ :=
  (List.range 10).foldl (fun val _ => val * (1001 / 1000)) (A i + B i)

/-- Embeds the `vectorAdd` kernel body (lines 29-39) for global thread
index `i`: a bounds-guarded write of the transformed sum into `C[i]`. -/
def vectorAdd (A B C : ℕ → ℚ) (numElements i : ℕ) : ℕ → ℚ :=
  if i < numElements then Function.update C i (vectorAddVal A B i) else C

/-- Inner-product loop of `matMulKernel` (lines 50-53):
`sum += A[row*K + k] * B[k*N + col]` over `k < K`. -/
def matMulVal (A B : ℕ → ℚ) (N K row col : ℕ) : ℚ :=
  (List.range K).foldl (fun sum k => sum + A (row * K + k) * B (k * N + col)) 0

/-- Embeds the `matMulKernel` body (lines 45-56) for the thread at
`(row, col)`: a guarded write of the inner product into `C[row*N+col]`. -/
def matMulKernel (A B C : ℕ → ℚ) (M N K row col : ℕ) : ℕ → ℚ :=
  if row < M ∧ col < N then
    Function.update C (row * N + col) (matMulVal A B N K row col)
  else C

/-- Masked sum / count value computed by one `meanPoolingKernel` thread
(lines 69-84): positions with `attentionMask[b*seqLen+s] == 1` contribute
`input[(b*seqLen+s)*hiddenSize+h]` to the sum and bump the count; the
result is `sum / count`, or `0.0` when the count is zero. -/
def meanPoolVal (input : ℕ → ℚ) (attentionMask : ℕ → ℤ) (seqLen hiddenSize b h : ℕ) : ℚ :=
  let sc := (List.range seqLen).foldl
    (fun (sc : ℚ × ℕ) s =>
      if attentionMask (b * seqLen + s) = 1 then
        (sc.1 + input ((b * seqLen + s) * hiddenSize + h), sc.2 + 1)
      else sc)
    (0, 0)
  if 0 < sc.2 then sc.1 / (sc.2 : ℚ) else 0

/-- Embeds the `meanPoolingKernel` body (lines 64-86) for the thread at
batch `b`, hidden index `h`: a guarded write into `output[b*hiddenSize+h]`. -/
def meanPoolingKernel (input : ℕ → ℚ) (attentionMask : ℕ → ℤ) (output : ℕ → ℚ)
    (batchSize seqLen hiddenSize b h : ℕ) : ℕ → ℚ :=
  if b < batchSize ∧ h < hiddenSize then
    Function.update output (b * hiddenSize + h)
      (meanPoolVal input attentionMask seqLen hiddenSize b h)
  else output

/-- Embeds the `reluKernel` body (lines 92-97) for global thread index
`i`: `output[i] = fmaxf(0.0f, input[i])`, bounds-guarded. -/
def reluKernel (input output : ℕ → ℚ) (numElements i : ℕ) : ℕ → ℚ :=
  if i < numElements then Function.update output i (fmaxf 0 (input i)) else output

/-- Global thread indices of a two-axis launch: all pairs `(y, x)` with
`y < numY` and `x < numX`, mirroring the 2-D / z-indexed grids used by
`matMulKernel` and `meanPoolingKernel`. -/
def threadPairs (numY numX : ℕ) : List (ℕ × ℕ) :=
  (List.range numY).flatMap fun y => (List.range numX).map fun x => (y, x)

/-! Device-resident operations (`MatrixMultiply_GPU`, `MeanPooling_GPU`,
`ReluActivation_GPU`, lines 150-237): only the timing-bracketed dispatch
over caller-supplied device buffers.  Value semantics: the fold of the
kernel body over the launched thread indices. -/

/-- Embeds the dispatch of `MatrixMultiply_GPU` (lines 150-179):
16×16 blocks, `ceil(N/16) × ceil(M/16)` grid. -/
def MatrixMultiply_GPU (d_A d_B d_C : ℕ → ℚ) (M N K : ℕ) : ℕ → ℚ :=
  let blocksX := (N + 16 - 1) / 16
  let blocksY := (M + 16 - 1) / 16
  (threadPairs (blocksY * 16) (blocksX * 16)).foldl
    (fun acc rc => matMulKernel d_A d_B acc M N K rc.1 rc.2) d_C

/-- Embeds the dispatch of `MeanPooling_GPU` (lines 181-208): 256-thread
blocks over the hidden axis, `batchSize` blocks on the z axis. -/
def MeanPooling_GPU (d_Input : ℕ → ℚ) (d_AttentionMask : ℕ → ℤ) (d_Output : ℕ → ℚ)
    (batchSize seqLen hiddenSize : ℕ) : ℕ → ℚ :=
  let threadsPerBlock := 256
  (threadPairs batchSize
      ((hiddenSize + threadsPerBlock - 1) / threadsPerBlock * threadsPerBlock)).foldl
    (fun acc bh => meanPoolingKernel d_Input d_AttentionMask acc batchSize seqLen hiddenSize bh.1 bh.2)
    d_Output

/-- Embeds the dispatch of `ReluActivation_GPU` (lines 210-237):
`ceil(numElements/256)` blocks of 256 threads. -/
def ReluActivation_GPU (d_Input d_Output : ℕ → ℚ) (numElements : ℕ) : ℕ → ℚ :=
  let threadsPerBlock := 256
  let blocksPerGrid := (numElements + threadsPerBlock - 1) / threadsPerBlock
  (List.range (blocksPerGrid * threadsPerBlock)).foldl
    (fun acc i => reluKernel d_Input acc numElements i) d_Output

/-! Host-convenience operations (lines 252-450): allocate device buffers,
copy inputs in, dispatch, copy the result back.  Copies preserve values,
so a device input buffer holds the host values; a freshly allocated
output buffer starts with unspecified contents (taken as 0 here — every
cell that is copied back is first written by a kernel thread), and the
copy-out overwrites exactly the first `size` elements of the host output
array, leaving the rest of the host array unchanged. -/

/-- Embeds `ComputeTensorOp` (lines 252-304): the host-convenience
vector-add cycle, dispatching `vectorAdd` over `ceil(n/256)` blocks of
256 threads. -/
def ComputeTensorOp (h_A h_B h_C : ℕ → ℚ) (numElements : ℕ) : ℕ → ℚ :=
  let d_A := h_A
  let d_B := h_B
  let d_C : ℕ → ℚ := fun _ => 0
  let threadsPerBlock := 256
  let blocksPerGrid := (numElements + threadsPerBlock - 1) / threadsPerBlock
  let d_C := (List.range (blocksPerGrid * threadsPerBlock)).foldl
    (fun acc i => vectorAdd d_A d_B acc numElements i) d_C
  fun i => if i < numElements then d_C i else h_C i

/-- Embeds `MatrixMultiply` (lines 306-355): the host-convenience matmul
cycle, duplicating the 16×16 dispatch of the device-resident variant. -/
def MatrixMultiply (h_A h_B h_C : ℕ → ℚ) (M N K : ℕ) : ℕ → ℚ :=
  let d_A := h_A
  let d_B := h_B
  let d_C : ℕ → ℚ := fun _ => 0
  let blocksX := (N + 16 - 1) / 16
  let blocksY := (M + 16 - 1) / 16
  let d_C := (threadPairs (blocksY * 16) (blocksX * 16)).foldl
    (fun acc rc => matMulKernel d_A d_B acc M N K rc.1 rc.2) d_C
  fun i => if i < M * N then d_C i else h_C i

/-- Embeds `MeanPooling` (lines 357-406): the host-convenience pooling
cycle, duplicating the dispatch of the device-resident variant. -/
def MeanPooling (h_Input : ℕ → ℚ) (h_AttentionMask : ℕ → ℤ) (h_Output : ℕ → ℚ)
    (batchSize seqLen hiddenSize : ℕ) : ℕ → ℚ :=
  let d_Input := h_Input
  let d_Mask := h_AttentionMask
  let d_Output : ℕ → ℚ := fun _ => 0
  let threadsPerBlock := 256
  let d_Output := (threadPairs batchSize
      ((hiddenSize + threadsPerBlock - 1) / threadsPerBlock * threadsPerBlock)).foldl
    (fun acc bh => meanPoolingKernel d_Input d_Mask acc batchSize seqLen hiddenSize bh.1 bh.2)
    d_Output
  fun i => if i < batchSize * hiddenSize then d_Output i else h_Output i

/-- Embeds `ReluActivation` (lines 408-450): the host-convenience relu
cycle, duplicating the dispatch of the device-resident variant. -/
def ReluActivation (h_Input h_Output : ℕ → ℚ) (numElements : ℕ) : ℕ → ℚ :=
  let d_Input := h_Input
  let d_Output : ℕ → ℚ := fun _ => 0
  let threadsPerBlock := 256
  let blocksPerGrid := (numElements + threadsPerBlock - 1) / threadsPerBlock
  let d_Output := (List.range (blocksPerGrid * threadsPerBlock)).foldl
    (fun acc i => reluKernel d_Input acc numElements i) d_Output
  fun i => if i < numElements then d_Output i else h_Output i

/-! Resource and metrics projection of the exported entry points.  A
`CudaState` tracks the live device buffers (id and byte size), the next
fresh buffer id, the device memory capacity, and an allocation oracle
`allocFail` consulted at the `allocCount`-th `cudaMalloc` call, so that
every pattern of allocation successes and failures can be examined. -/

/-- Metrics record (`TensorMetrics` in `tensor_ops.h`). -/
structure TensorMetrics where
  compute_time_ms : ℚ
  memory_usage_mb : ℚ
  active_kernels : ℤ
deriving DecidableEq

/-- Device-side allocation state. -/
structure CudaState where
  buffers : List (ℕ × ℕ)
  nextId : ℕ
  totalBytes : ℕ
  allocFail : ℕ → Bool
  allocCount : ℕ

/-- Bytes currently held by live device buffers. -/
def usedBytes (st : CudaState) : ℕ := (st.buffers.map Prod.snd).sum

/-- Embeds `cudaMalloc`: consults the oracle; on success registers a
fresh buffer id with the requested byte size. -/
def cudaMalloc (st : CudaState) (sizeBytes : ℕ) : Option ℕ × CudaState :=
  if st.allocFail st.allocCount then
    (none, { st with allocCount := st.allocCount + 1 })
  else
    (some st.nextId,
     { st with buffers := (st.nextId, sizeBytes) :: st.buffers,
               nextId := st.nextId + 1,
               allocCount := st.allocCount + 1 })

/-- Embeds `cudaFree`: a no-op on the null pointer, else removes the
buffer with the given id. -/
def cudaFree (st : CudaState) (ptr : Option ℕ) : CudaState :=
  match ptr with
  | none => st
  | some id => { st with buffers := st.buffers.filter (fun b => b.1 != id) }

/-- Value stored into `memory_usage_mb` (lines 292-294): sample
`cudaMemGetInfo` and report `(total - free) / 1024 / 1024`. -/
def memoryUsageMB (st : CudaState) : ℚ :=
  let free_byte := st.totalBytes - usedBytes st
  let total_byte := st.totalBytes
  ((total_byte - free_byte : ℕ) : ℚ) / 1024 / 1024

/-- Observable outcome of one entry-point call: the device state on
return, the caller's metrics record, and whether the kernel dispatch was
reached. -/
structure OpResult where
  st : CudaState
  metrics : Option TensorMetrics
  kernelLaunched : Bool

/-- A state is well formed when every live buffer id is below the next
fresh id. -/
def WFState (st : CudaState) : Prop := ∀ b ∈ st.buffers, b.1 < st.nextId

/-- Resource/metrics projection of `ComputeTensorOp` (lines 252-304):
three checked allocations with staged unwinding (lines 261-263), then
dispatch, metrics update and cleanup. -/
def ComputeTensorOpRes (numElements : ℕ) (elapsedMs : ℚ)
    (metrics : Option TensorMetrics) (st : CudaState) : OpResult :=
  let size := numElements * 4
  let r1 := cudaMalloc st size
  if r1.1 = none then ⟨r1.2, metrics, false⟩ else
  let r2 := cudaMalloc r1.2 size
  if r2.1 = none then ⟨cudaFree r2.2 r1.1, metrics, false⟩ else
  let r3 := cudaMalloc r2.2 size
  if r3.1 = none then ⟨cudaFree (cudaFree r3.2 r1.1) r2.1, metrics, false⟩ else
  let metrics2 := metrics.map fun m =>
    { m with compute_time_ms := elapsedMs,
             memory_usage_mb := memoryUsageMB r3.2,
             active_kernels := 1 }
  ⟨cudaFree (cudaFree (cudaFree r3.2 r1.1) r2.1) r3.1, metrics2, true⟩

/-- Resource/metrics projection of `MatrixMultiply` (lines 306-355):
three unchecked allocations, unconditional dispatch, metrics update
(including the `cudaMemGetInfo` sample, lines 344-346), then frees. -/
def MatrixMultiplyRes (M N K : ℕ) (elapsedMs : ℚ)
    (metrics : Option TensorMetrics) (st : CudaState) : OpResult :=
  let sizeA := M * K * 4
  let sizeB := K * N * 4
  let sizeC := M * N * 4
  let r1 := cudaMalloc st sizeA
  let r2 := cudaMalloc r1.2 sizeB
  let r3 := cudaMalloc r2.2 sizeC
  let metrics2 := metrics.map fun m =>
    { m with compute_time_ms := elapsedMs,
             memory_usage_mb := memoryUsageMB r3.2,
             active_kernels := 1 }
  ⟨cudaFree (cudaFree (cudaFree r3.2 r1.1) r2.1) r3.1, metrics2, true⟩

/-- Resource/metrics projection of `MeanPooling` (lines 357-406): three
unchecked allocations (input, mask, output), unconditional dispatch,
metrics update (including the `cudaMemGetInfo` sample, lines 395-397),
then frees. -/
def MeanPoolingRes (batchSize seqLen hiddenSize : ℕ) (elapsedMs : ℚ)
    (metrics : Option TensorMetrics) (st : CudaState) : OpResult :=
  let sizeInput := batchSize * seqLen * hiddenSize * 4
  let sizeMask := batchSize * seqLen * 8
  let sizeOutput := batchSize * hiddenSize * 4
  let r1 := cudaMalloc st sizeInput
  let r2 := cudaMalloc r1.2 sizeMask
  let r3 := cudaMalloc r2.2 sizeOutput
  let metrics2 := metrics.map fun m =>
    { m with compute_time_ms := elapsedMs,
             memory_usage_mb := memoryUsageMB r3.2,
             active_kernels := 1 }
  ⟨cudaFree (cudaFree (cudaFree r3.2 r1.1) r2.1) r3.1, metrics2, true⟩

/-- Resource/metrics projection of `ReluActivation` (lines 408-450): two
unchecked allocations, unconditional dispatch, metrics update (including
the `cudaMemGetInfo` sample, lines 440-442), then frees. -/
def ReluActivationRes (numElements : ℕ) (elapsedMs : ℚ)
    (metrics : Option TensorMetrics) (st : CudaState) : OpResult :=
  let size := numElements * 4
  let r1 := cudaMalloc st size
  let r2 := cudaMalloc r1.2 size
  let metrics2 := metrics.map fun m =>
    { m with compute_time_ms := elapsedMs,
             memory_usage_mb := memoryUsageMB r2.2,
             active_kernels := 1 }
  ⟨cudaFree (cudaFree r2.2 r1.1) r2.1, metrics2, true⟩

/-- Resource/metrics projection of `MatrixMultiply_GPU` (lines 150-179):
no allocation; writes `compute_time_ms` and `active_kernels` only. -/
def MatrixMultiply_GPURes (M N K : ℕ) (elapsedMs : ℚ)
    (metrics : Option TensorMetrics) (st : CudaState) : OpResult :=
  let metrics2 := metrics.map fun m =>
    { m with compute_time_ms := elapsedMs, active_kernels := 1 }
  ⟨st, metrics2, true⟩

/-- Resource/metrics projection of `MeanPooling_GPU` (lines 181-208). -/
def MeanPooling_GPURes (batchSize seqLen hiddenSize : ℕ) (elapsedMs : ℚ)
    (metrics : Option TensorMetrics) (st : CudaState) : OpResult :=
  let metrics2 := metrics.map fun m =>
    { m with compute_time_ms := elapsedMs, active_kernels := 1 }
  ⟨st, metrics2, true⟩

/-- Resource/metrics projection of `ReluActivation_GPU` (lines 210-237). -/
def ReluActivation_GPURes (numElements : ℕ) (elapsedMs : ℚ)
    (metrics : Option TensorMetrics) (st : CudaState) : OpResult :=
  let metrics2 := metrics.map fun m =>
    { m with compute_time_ms := elapsedMs, active_kernels := 1 }
  ⟨st, metrics2, true⟩

/-- Embeds `ValidateTensorContent` (lines 463-481): one checked
allocation (`return -1` on failure, line 468), copy-in, free, increment
of `active_kernels`, `return 1`.  The data and threshold parameters are
never inspected. -/
def ValidateTensorContentRes (h_Data : ℕ → ℚ) (numElements : ℕ) (threshold : ℚ)
    (metrics : Option TensorMetrics) (st : CudaState) :
    ℤ × CudaState × Option TensorMetrics :=
  let size := numElements * 4
  let r1 := cudaMalloc st size
  if r1.1 = none then (-1, r1.2, metrics) else
  let st2 := cudaFree r1.2 r1.1
  let metrics2 := metrics.map fun m => { m with active_kernels := m.active_kernels + 1 }
  (1, st2, metrics2)

/-! Concrete inputs used by witnesses and counterexamples. -/

/-- Host array `A = [1, 2, 3, 4]` of the spec's vector-add test case. -/
def vecA : ℕ → ℚ := fun i => if i = 0 then 1 else if i = 1 then 2 else if i = 2 then 3 else if i = 3 then 4 else 0

/-- Host array `B = [4, 3, 2, 1]` of the spec's vector-add test case. -/
def vecB : ℕ → ℚ := fun i => if i = 0 then 4 else if i = 1 then 3 else if i = 2 then 2 else if i = 3 then 1 else 0

/-- Flat `[batch=1, seq=3, hidden=2]` input `[[1,10],[2,20],[3,30]]`. -/
def poolInput : ℕ → ℚ := fun i =>
  if i = 0 then 1 else if i = 1 then 10 else if i = 2 then 2
  else if i = 3 then 20 else if i = 4 then 3 else if i = 5 then 30 else 0

/-- Attention mask `[1, 0, 1]` of the spec's pooling test case. -/
def poolMask : ℕ → ℤ := fun i => if i = 0 then 1 else if i = 1 then 0 else if i = 2 then 1 else 0

/-- A mask holding the out-of-contract values 2 and -1. -/
def wildMask : ℕ → ℤ := fun i => if i = 0 then 2 else -1

/-- The all-zero mask. -/
def zeroMask : ℕ → ℤ := fun _ => 0

/-- A metrics record with all fields zero. -/
def mZero : TensorMetrics := ⟨0, 0, 0⟩

/-- A metrics record whose `active_kernels` is already 2. -/
def mTwo : TensorMetrics := ⟨0, 0, 2⟩

/-- An empty device state in which every allocation succeeds. -/
def stOK : CudaState := ⟨[], 0, 1000000000, fun _ => false, 0⟩

/-- An empty device state whose second allocation fails. -/
def stFail2nd : CudaState := ⟨[], 0, 1000000, fun k => k == 1, 0⟩

/-- An empty device state in which every allocation fails. -/
def stAllFail : CudaState := ⟨[], 0, 1000000, fun _ => true, 0⟩

/-! Generic facts about a launch, i.e. a left fold of guarded single-cell
writes over a list of threads.  Each kernel body above writes one output
cell whose address and value depend only on the thread index, so the
final contents of an output cell are those written by the unique thread
addressing it. -/

lemma foldl_update_const {T : Type} (g : T → Prop) [DecidablePred g]
    (addr : T → ℕ) (f : T → ℚ) (a : ℕ) (v : ℚ) :
    ∀ (l : List T) (out : ℕ → ℚ), out a = v → (∀ t ∈ l, g t → addr t = a → f t = v) →
      (l.foldl (fun acc t => if g t then Function.update acc (addr t) (f t) else acc) out) a
        = v := by
  intro l
  induction l with
  | nil => intro out hout _; simpa using hout
  | cons x xs ih =>
      intro out hout hval
      simp only [List.foldl_cons]
      apply ih
      · by_cases hg : g x
        · by_cases ha : addr x = a
          · rw [if_pos hg, ha, Function.update_same]
            exact hval x (List.mem_cons_self x xs) hg ha
          · rw [if_pos hg, Function.update_noteq (fun h => ha h.symm)]
            exact hout
        · rw [if_neg hg]; exact hout
      · intro t ht hgt hat
        exact hval t (List.mem_cons_of_mem x ht) hgt hat

lemma foldl_update_eq {T : Type} (g : T → Prop) [DecidablePred g]
    (addr : T → ℕ) (f : T → ℚ) (t : T) (hg : g t)
    (huq : ∀ u, g u → addr u = addr t → f u = f t) :
    ∀ (l : List T) (out : ℕ → ℚ), t ∈ l →
      (l.foldl (fun acc u => if g u then Function.update acc (addr u) (f u) else acc) out) (addr t)
        = f t := by
  intro l
  induction l with
  | nil => intro out ht; cases ht
  | cons x xs ih =>
      intro out ht
      simp only [List.foldl_cons]
      by_cases hx : t ∈ xs
      · exact ih _ hx
      · have hxt : x = t := by
          rcases List.mem_cons.mp ht with h | h
          · exact h.symm
          · exact absurd h hx
        subst hxt
        apply foldl_update_const g addr f (addr x) (f x) xs
        · rw [if_pos hg, Function.update_same]
        · intro u hu hgu hau
          exact huq u hgu hau

/-- Grid coverage for the 1-D launches: `ceil(n/256)` blocks of 256
threads reach every index below `n`. -/
lemma le_cover256 (n : ℕ) : n ≤ (n + 256 - 1) / 256 * 256 := by omega

/-- Grid coverage for the 16×16-tiled launches. -/
lemma le_cover16 (n : ℕ) : n ≤ (n + 16 - 1) / 16 * 16 := by omega

/-- Row-major flat index bound: `row*N + col < M*N` for in-range rows and
columns. -/
lemma flat_lt {M N row col : ℕ} (hr : row < M) (hc : col < N) :
    row * N + col < M * N :=
  calc row * N + col < row * N + N := by omega
    _ = (row + 1) * N := by ring
    _ ≤ M * N := Nat.mul_le_mul_right N hr

/-- Row-major flat indices are injective on in-range columns. -/
lemma flat_inj {N r c r2 c2 : ℕ} (hc : c < N) (hc2 : c2 < N)
    (h : r * N + c = r2 * N + c2) : r = r2 ∧ c = c2 := by
  have hN : 0 < N := lt_of_le_of_lt (Nat.zero_le c) hc
  have h1 : (r * N + c) / N = r := by
    rw [mul_comm, Nat.mul_add_div hN, Nat.div_eq_of_lt hc, Nat.add_zero]
  have h2 : (r2 * N + c2) / N = r2 := by
    rw [mul_comm, Nat.mul_add_div hN, Nat.div_eq_of_lt hc2, Nat.add_zero]
  have hr : r = r2 := by rw [← h1, ← h2, h]
  refine ⟨hr, ?_⟩
  subst hr
  omega

lemma mem_threadPairs {numY numX y x : ℕ} (hy : y < numY) (hx : x < numX) :
    (y, x) ∈ threadPairs numY numX := by
  simp only [threadPairs, List.mem_flatMap, List.mem_map, List.mem_range]
  exact ⟨y, hy, x, hx, rfl⟩

/-! Pointwise descriptions of the dispatches. -/

lemma vectorAdd_dispatch (A B C : ℕ → ℚ) (n i : ℕ) (hi : i < n) :
    ((List.range ((n + 256 - 1) / 256 * 256)).foldl
        (fun acc t => vectorAdd A B acc n t) C) i = vectorAddVal A B i := by
  have hcov : i < (n + 256 - 1) / 256 * 256 := lt_of_lt_of_le hi (le_cover256 n)
  have h := foldl_update_eq (T := ℕ) (fun j => j < n) (fun j => j)
    (fun j => vectorAddVal A B j) i hi
    (fun u _ hu => by
      show vectorAddVal A B u = vectorAddVal A B i
      rw [show u = i from hu])
    (List.range ((n + 256 - 1) / 256 * 256)) C (List.mem_range.mpr hcov)
  simpa only [vectorAdd] using h

lemma relu_dispatch (input C : ℕ → ℚ) (n i : ℕ) (hi : i < n) :
    ((List.range ((n + 256 - 1) / 256 * 256)).foldl
        (fun acc t => reluKernel input acc n t) C) i = fmaxf 0 (input i) := by
  have hcov : i < (n + 256 - 1) / 256 * 256 := lt_of_lt_of_le hi (le_cover256 n)
  have h := foldl_update_eq (T := ℕ) (fun j => j < n) (fun j => j)
    (fun j => fmaxf 0 (input j)) i hi
    (fun u _ hu => by
      show fmaxf 0 (input u) = fmaxf 0 (input i)
      rw [show u = i from hu])
    (List.range ((n + 256 - 1) / 256 * 256)) C (List.mem_range.mpr hcov)
  simpa only [reluKernel] using h

lemma matMul_dispatch (A B C : ℕ → ℚ) (M N K row col : ℕ) (hr : row < M) (hc : col < N) :
    ((threadPairs ((M + 16 - 1) / 16 * 16) ((N + 16 - 1) / 16 * 16)).foldl
        (fun acc rc => matMulKernel A B acc M N K rc.1 rc.2) C) (row * N + col)
      = matMulVal A B N K row col := by
  have hmem : (row, col) ∈ threadPairs ((M + 16 - 1) / 16 * 16) ((N + 16 - 1) / 16 * 16) :=
    mem_threadPairs (lt_of_lt_of_le hr (le_cover16 M)) (lt_of_lt_of_le hc (le_cover16 N))
  have h := foldl_update_eq (T := ℕ × ℕ) (fun rc => rc.1 < M ∧ rc.2 < N)
    (fun rc => rc.1 * N + rc.2) (fun rc => matMulVal A B N K rc.1 rc.2) (row, col) ⟨hr, hc⟩
    (fun u hu hadd => by
      obtain ⟨h1, h2⟩ := flat_inj hu.2 hc hadd
      show matMulVal A B N K u.1 u.2 = matMulVal A B N K row col
      rw [h1, h2])
    (threadPairs ((M + 16 - 1) / 16 * 16) ((N + 16 - 1) / 16 * 16)) C hmem
  simpa only [matMulKernel] using h

lemma meanPool_dispatch (input : ℕ → ℚ) (mask : ℕ → ℤ) (C : ℕ → ℚ)
    (Bt L H b h : ℕ) (hb : b < Bt) (hh : h < H) :
    ((threadPairs Bt ((H + 256 - 1) / 256 * 256)).foldl
        (fun acc bh => meanPoolingKernel input mask acc Bt L H bh.1 bh.2) C) (b * H + h)
      = meanPoolVal input mask L H b h := by
  have hmem : (b, h) ∈ threadPairs Bt ((H + 256 - 1) / 256 * 256) :=
    mem_threadPairs hb (lt_of_lt_of_le hh (le_cover256 H))
  have hres := foldl_update_eq (T := ℕ × ℕ) (fun bh => bh.1 < Bt ∧ bh.2 < H)
    (fun bh => bh.1 * H + bh.2) (fun bh => meanPoolVal input mask L H bh.1 bh.2) (b, h) ⟨hb, hh⟩
    (fun u hu hadd => by
      obtain ⟨h1, h2⟩ := flat_inj hu.2 hh hadd
      show meanPoolVal input mask L H u.1 u.2 = meanPoolVal input mask L H b h
      rw [h1, h2])
    (threadPairs Bt ((H + 256 - 1) / 256 * 256)) C hmem
  simpa only [meanPoolingKernel] using hres

/-! Pointwise descriptions of the host-convenience operations. -/

lemma computeTensorOp_apply (h_A h_B h_C : ℕ → ℚ) (n i : ℕ) (hi : i < n) :
    ComputeTensorOp h_A h_B h_C n i = vectorAddVal h_A h_B i := by
  simp only [ComputeTensorOp]
  rw [if_pos hi]
  exact vectorAdd_dispatch h_A h_B (fun _ => 0) n i hi

lemma matrixMultiply_apply (h_A h_B h_C : ℕ → ℚ) (M N K row col : ℕ)
    (hr : row < M) (hc : col < N) :
    MatrixMultiply h_A h_B h_C M N K (row * N + col) = matMulVal h_A h_B N K row col := by
  simp only [MatrixMultiply]
  rw [if_pos (flat_lt hr hc)]
  exact matMul_dispatch h_A h_B (fun _ => 0) M N K row col hr hc

lemma meanPooling_apply (input : ℕ → ℚ) (mask : ℕ → ℤ) (out : ℕ → ℚ)
    (Bt L H b h : ℕ) (hb : b < Bt) (hh : h < H) :
    MeanPooling input mask out Bt L H (b * H + h) = meanPoolVal input mask L H b h := by
  simp only [MeanPooling]
  rw [if_pos (flat_lt hb hh)]
  exact meanPool_dispatch input mask (fun _ => 0) Bt L H b h hb hh

lemma reluActivation_apply (input out : ℕ → ℚ) (n i : ℕ) :
    ReluActivation input out n i = if i < n then fmaxf 0 (input i) else out i := by
  by_cases hi : i < n
  · simp only [ReluActivation]
    rw [if_pos hi, if_pos hi]
    exact relu_dispatch input (fun _ => 0) n i hi
  · simp only [ReluActivation]
    rw [if_neg hi, if_neg hi]

/-! Closed forms of the per-thread values. -/

lemma vectorAddVal_eq (A B : ℕ → ℚ) (i : ℕ) :
    vectorAddVal A B i = (A i + B i) * (1001 / 1000) ^ 10 := by
  have h : List.range 10 = [0, 1, 2, 3, 4, 5, 6, 7, 8, 9] := rfl
  simp only [vectorAddVal, h, List.foldl_cons, List.foldl_nil]
  ring

lemma foldl_add_eq_sum (g : ℕ → ℚ) :
    ∀ (l : List ℕ) (a : ℚ), l.foldl (fun s k => s + g k) a = a + (l.map g).sum := by
  intro l
  induction l with
  | nil => intro a; simp
  | cons x xs ih =>
      intro a
      simp only [List.foldl_cons, List.map_cons, List.sum_cons, ih]
      ring

lemma map_range_sum_eq (g : ℕ → ℚ) (n : ℕ) :
    ((List.range n).map g).sum = ∑ k in Finset.range n, g k := by
  induction n with
  | zero => simp
  | succ m ih => rw [List.range_succ]; simp [ih, Finset.sum_range_succ]

lemma matMulVal_eq_sum (A B : ℕ → ℚ) (N K row col : ℕ) :
    matMulVal A B N K row col = ∑ k in Finset.range K, A (row * K + k) * B (k * N + col) := by
  simp only [matMulVal]
  rw [foldl_add_eq_sum (fun k => A (row * K + k) * B (k * N + col)) (List.range K) 0,
      map_range_sum_eq, zero_add]

lemma meanPoolFold (p : ℕ → Prop) [DecidablePred p] (v : ℕ → ℚ) :
    ∀ (l : List ℕ) (init : ℚ × ℕ),
      l.foldl (fun sc s => if p s then (sc.1 + v s, sc.2 + 1) else sc) init
        = (init.1 + ((l.filter fun s => decide (p s)).map v).sum,
           init.2 + (l.filter fun s => decide (p s)).length) := by
  intro l
  induction l with
  | nil => intro init; simp
  | cons x xs ih =>
      intro init
      by_cases hx : p x
      · rw [List.foldl_cons, if_pos hx, ih]
        simp only [List.filter_cons, decide_eq_true_eq, if_pos hx, List.map_cons,
          List.sum_cons, List.length_cons]
        refine Prod.ext ?_ ?_
        · simp only; ring
        · simp only; omega
      · rw [List.foldl_cons, if_neg hx, ih]
        simp only [List.filter_cons, decide_eq_true_eq, if_neg hx]

/-- Sequence positions of row `b` that the kernel counts as valid:
exactly those whose mask entry equals the integer 1. -/
lemma meanPoolVal_eq (input : ℕ → ℚ) (mask : ℕ → ℤ) (L H b h : ℕ) :
    meanPoolVal input mask L H b h =
      if 0 < ((List.range L).filter fun s => decide (mask (b * L + s) = 1)).length then
        (((List.range L).filter fun s => decide (mask (b * L + s) = 1)).map
            fun s => input ((b * L + s) * H + h)).sum
          / (((List.range L).filter fun s => decide (mask (b * L + s) = 1)).length : ℚ)
      else 0 := by
  simp only [meanPoolVal]
  rw [meanPoolFold (fun s => mask (b * L + s) = 1)
    (fun s => input ((b * L + s) * H + h)) (List.range L) (0, 0)]
  simp

/-! Facts about `fmaxf 0`. -/

lemma fmaxf_nonneg (x : ℚ) : 0 ≤ fmaxf 0 x := by
  unfold fmaxf
  split_ifs with h
  · exact le_refl 0
  · exact not_lt.mp h

lemma fmaxf_of_nonneg {x : ℚ} (hx : 0 ≤ x) : fmaxf 0 x = x := by
  unfold fmaxf
  rw [if_neg (not_lt.mpr hx)]

lemma fmaxf_idem (x : ℚ) : fmaxf 0 (fmaxf 0 x) = fmaxf 0 x :=
  fmaxf_of_nonneg (fmaxf_nonneg x)

/-! Pointwise descriptions of the device-resident operations. -/

lemma matrixMultiplyGPU_apply (d_A d_B d_C : ℕ → ℚ) (M N K row col : ℕ)
    (hr : row < M) (hc : col < N) :
    MatrixMultiply_GPU d_A d_B d_C M N K (row * N + col) = matMulVal d_A d_B N K row col := by
  simp only [MatrixMultiply_GPU]
  exact matMul_dispatch d_A d_B d_C M N K row col hr hc

lemma meanPoolingGPU_apply (d_Input : ℕ → ℚ) (d_Mask : ℕ → ℤ) (d_Output : ℕ → ℚ)
    (Bt L H b h : ℕ) (hb : b < Bt) (hh : h < H) :
    MeanPooling_GPU d_Input d_Mask d_Output Bt L H (b * H + h)
      = meanPoolVal d_Input d_Mask L H b h := by
  simp only [MeanPooling_GPU]
  exact meanPool_dispatch d_Input d_Mask d_Output Bt L H b h hb hh

lemma reluActivationGPU_apply (d_Input d_Output : ℕ → ℚ) (n i : ℕ) (hi : i < n) :
    ReluActivation_GPU d_Input d_Output n i = fmaxf 0 (d_Input i) := by
  simp only [ReluActivation_GPU]
  exact relu_dispatch d_Input d_Output n i hi

/-! Claim theorems for the value semantics. -/

/-- C3: for every pair of float arrays `A`, `B` of length
`numElements ≥ 0`, `ComputeTensorOp` populates `C` with
`C[i] = (A[i] + B[i]) * 1.001^10` (the sum multiplied ten successive
times by 1.001) for every index `i < numElements`. -/
theorem computeTensorOp_vector_add (h_A h_B h_C : ℕ → ℚ) (numElements : ℕ) :
    ∀ i, i < numElements →
      ComputeTensorOp h_A h_B h_C numElements i
        = (h_A i + h_B i) * (1001 / 1000) ^ 10 := by
  intro i hi
  rw [computeTensorOp_apply h_A h_B h_C numElements i hi, vectorAddVal_eq]

theorem computeTensorOp_vector_add_witness :
    0 < 1 ∧ ComputeTensorOp (fun _ => 1) (fun _ => 2) (fun _ => 0) 1 0
      = (1 + 2) * (1001 / 1000) ^ 10 :=
  ⟨by norm_num,
   by simpa using computeTensorOp_vector_add (fun _ => 1) (fun _ => 2) (fun _ => 0) 1 0 (by norm_num)⟩

/-- C5: for every input array, `ReluActivation` writes nonnegative
values, is the identity on nonnegative inputs, and is idempotent:
re-applying it to its own output yields the same output. -/
theorem reluActivation_props (h_Input h_Output : ℕ → ℚ) (numElements : ℕ) :
    (∀ i, i < numElements → 0 ≤ ReluActivation h_Input h_Output numElements i)
  ∧ (∀ i, i < numElements → 0 ≤ h_Input i →
      ReluActivation h_Input h_Output numElements i = h_Input i)
  ∧ ReluActivation (ReluActivation h_Input h_Output numElements)
      (ReluActivation h_Input h_Output numElements) numElements
    = ReluActivation h_Input h_Output numElements := by
  refine ⟨?_, ?_, ?_⟩
  · intro i hi
    rw [reluActivation_apply, if_pos hi]
    exact fmaxf_nonneg _
  · intro i hi hpos
    rw [reluActivation_apply, if_pos hi]
    exact fmaxf_of_nonneg hpos
  · funext i
    rw [reluActivation_apply]
    by_cases hi : i < numElements
    · rw [if_pos hi, reluActivation_apply, if_pos hi, fmaxf_idem]
    · rw [if_neg hi]

theorem reluActivation_props_witness :
    (0 < 1 ∧ 0 ≤ ReluActivation (fun _ => -2) (fun _ => 0) 1 0)
  ∧ (0 ≤ (3 : ℚ) ∧ ReluActivation (fun _ => 3) (fun _ => 0) 1 0 = 3) :=
  ⟨⟨by norm_num, (reluActivation_props (fun _ => -2) (fun _ => 0) 1).1 0 (by norm_num)⟩,
   ⟨by norm_num,
    by simpa using (reluActivation_props (fun _ => (3 : ℚ)) (fun _ => 0) 1).2.1 0 (by norm_num) (by norm_num)⟩⟩

/-- C2: for every batch row `b` and hidden index `h`, `MeanPooling`
writes the arithmetic mean of `input[b,s,h]` over exactly the positions
`s` whose mask entry equals 1; with an all-ones mask this is the mean
over the whole sequence axis, and an all-zero mask row yields 0.0. -/
theorem meanPooling_masked_mean (input : ℕ → ℚ) (mask : ℕ → ℤ) (out : ℕ → ℚ)
    (Bt L H b h : ℕ) (hb : b < Bt) (hh : h < H) :
    (MeanPooling input mask out Bt L H (b * H + h) =
      if 0 < ((List.range L).filter fun s => decide (mask (b * L + s) = 1)).length then
        (((List.range L).filter fun s => decide (mask (b * L + s) = 1)).map
            fun s => input ((b * L + s) * H + h)).sum
          / (((List.range L).filter fun s => decide (mask (b * L + s) = 1)).length : ℚ)
      else 0)
  ∧ ((∀ s, s < L → mask (b * L + s) = 1) →
      MeanPooling input mask out Bt L H (b * H + h)
        = ((List.range L).map fun s => input ((b * L + s) * H + h)).sum / (L : ℚ))
  ∧ ((∀ s, s < L → mask (b * L + s) = 0) →
      MeanPooling input mask out Bt L H (b * H + h) = 0) := by
  have hap := meanPooling_apply input mask out Bt L H b h hb hh
  refine ⟨by rw [hap, meanPoolVal_eq], ?_, ?_⟩
  · intro hall
    have hfil : ((List.range L).filter fun s => decide (mask (b * L + s) = 1))
        = List.range L := by
      refine List.filter_eq_self.mpr ?_
      intro s hs
      rw [List.mem_range] at hs
      simp [hall s hs]
    rw [hap, meanPoolVal_eq, hfil, List.length_range]
    by_cases hL : 0 < L
    · rw [if_pos hL]
    · have hL0 : L = 0 := by omega
      subst hL0
      simp
  · intro hzero
    have hfil : ((List.range L).filter fun s => decide (mask (b * L + s) = 1))
        = [] := by
      refine List.filter_eq_nil_iff.mpr ?_
      intro s hs
      rw [List.mem_range] at hs
      simp [hzero s hs]
    rw [hap, meanPoolVal_eq, hfil]
    simp

theorem meanPooling_masked_mean_witness :
    0 < 1 ∧ 0 < 2 ∧ MeanPooling poolInput poolMask (fun _ => 0) 1 3 2 (0 * 2 + 0) = 2 :=
  ⟨by norm_num, by norm_num, by
    rw [(meanPooling_masked_mean poolInput poolMask (fun _ => 0) 1 3 2 0 0 (by norm_num) (by norm_num)).1]
    norm_num [show List.range 3 = [0, 1, 2] from rfl, List.filter_cons, List.filter_nil,
      poolMask, poolInput]⟩

/-- C4: for `M, N, K ≥ 1` and row-major `A : M×K`, `B : K×N`,
`MatrixMultiply` populates `C` with the standard matrix product
`C[row,col] = Σ_k A[row,k]·B[k,col]`; multiplying an identity matrix on
the left returns `B` unchanged. -/
theorem matrixMultiply_product :
    (∀ (h_A h_B h_C : ℕ → ℚ) (M N K row col : ℕ), 1 ≤ M → 1 ≤ N → 1 ≤ K →
        row < M → col < N →
        MatrixMultiply h_A h_B h_C M N K (row * N + col)
          = ∑ k in Finset.range K, h_A (row * K + k) * h_B (k * N + col))
  ∧ (∀ (h_A h_B h_C : ℕ → ℚ) (M N row col : ℕ),
        (∀ r k, r < M → k < M → h_A (r * M + k) = if r = k then 1 else 0) →
        row < M → col < N →
        MatrixMultiply h_A h_B h_C M N M (row * N + col) = h_B (row * N + col)) := by
  constructor
  · intro h_A h_B h_C M N K row col hM hN hK hr hc
    rw [matrixMultiply_apply h_A h_B h_C M N K row col hr hc, matMulVal_eq_sum]
  · intro h_A h_B h_C M N row col hA hr hc
    rw [matrixMultiply_apply h_A h_B h_C M N M row col hr hc, matMulVal_eq_sum]
    have hterm : ∀ k ∈ Finset.range M,
        h_A (row * M + k) * h_B (k * N + col)
          = if row = k then h_B (k * N + col) else 0 := by
      intro k hk
      rw [hA row k hr (Finset.mem_range.mp hk)]
      split_ifs <;> ring
    rw [Finset.sum_congr rfl hterm, Finset.sum_ite_eq, if_pos (Finset.mem_range.mpr hr)]

theorem matrixMultiply_product_witness :
    1 ≤ 1 ∧ 0 < 1 ∧ MatrixMultiply (fun _ => 3) (fun _ => 5) (fun _ => 0) 1 1 1 (0 * 1 + 0) = 15 :=
  ⟨by norm_num, by norm_num, by
    have h := matrixMultiply_product.1 (fun _ => 3) (fun _ => 5) (fun _ => 0) 1 1 1 0 0
      (by norm_num) (by norm_num) (by norm_num) (by norm_num) (by norm_num)
    rw [h]
    norm_num [Finset.sum_range_one]⟩

/-- C6: each operation family with both call shapes produces the same
output cell values from its device-resident and its host-convenience
variant on the same logical input; the concrete vector-add case
`A = [1,2,3,4]`, `B = [4,3,2,1]`, `numElements = 4` produces
`5 * 1.001^10` per element, which is within `10⁻³` of 5.050. -/
theorem gpu_host_equivalence :
    (∀ (A B hostC devC : ℕ → ℚ) (M N K row col : ℕ), row < M → col < N →
        MatrixMultiply A B hostC M N K (row * N + col)
          = MatrixMultiply_GPU A B devC M N K (row * N + col))
  ∧ (∀ (input : ℕ → ℚ) (mask : ℕ → ℤ) (hostO devO : ℕ → ℚ) (Bt L H b h : ℕ),
        b < Bt → h < H →
        MeanPooling input mask hostO Bt L H (b * H + h)
          = MeanPooling_GPU input mask devO Bt L H (b * H + h))
  ∧ (∀ (input hostO devO : ℕ → ℚ) (n i : ℕ), i < n →
        ReluActivation input hostO n i = ReluActivation_GPU input devO n i)
  ∧ (∀ i, i < 4 → ComputeTensorOp vecA vecB (fun _ => 0) 4 i = 5 * (1001 / 1000) ^ 10)
  ∧ |5 * ((1001 : ℚ) / 1000) ^ 10 - 505 / 100| < 1 / 1000 := by
  refine ⟨?_, ?_, ?_, ?_, ?_⟩
  · intro A B hostC devC M N K row col hr hc
    rw [matrixMultiply_apply A B hostC M N K row col hr hc,
        matrixMultiplyGPU_apply A B devC M N K row col hr hc]
  · intro input mask hostO devO Bt L H b h hb hh
    rw [meanPooling_apply input mask hostO Bt L H b h hb hh,
        meanPoolingGPU_apply input mask devO Bt L H b h hb hh]
  · intro input hostO devO n i hi
    rw [reluActivation_apply, if_pos hi, reluActivationGPU_apply input devO n i hi]
  · intro i hi
    rw [computeTensorOp_apply vecA vecB (fun _ => 0) 4 i hi, vectorAddVal_eq]
    have hab : vecA i + vecB i = 5 := by
      interval_cases i <;> norm_num [vecA, vecB]
    rw [hab]
  · rw [abs_lt]
    constructor <;> norm_num

theorem gpu_host_equivalence_witness :
    (0 < 1 ∧ ReluActivation (fun _ => 5) (fun _ => 0) 1 0
        = ReluActivation_GPU (fun _ => 5) (fun _ => 7) 1 0)
  ∧ (0 < 4 ∧ ComputeTensorOp vecA vecB (fun _ => 0) 4 0 = 5 * (1001 / 1000) ^ 10) :=
  ⟨⟨by norm_num,
    gpu_host_equivalence.2.2.1 (fun _ => 5) (fun _ => 0) (fun _ => 7) 1 0 (by norm_num)⟩,
   ⟨by norm_num, gpu_host_equivalence.2.2.2.1 0 (by norm_num)⟩⟩

/-- C10: `MeanPooling` counts a sequence position as valid exactly when
its mask entry equals the integer 1; any other value — for example 2 or
-1 — is excluded from both the sum and the divisor, exactly like 0. -/
theorem meanPooling_mask_strict_one :
    (∀ (input : ℕ → ℚ) (m1 m2 : ℕ → ℤ) (out : ℕ → ℚ) (Bt L H b h : ℕ),
        (∀ j, m1 j = 1 ↔ m2 j = 1) → b < Bt → h < H →
        MeanPooling input m1 out Bt L H (b * H + h)
          = MeanPooling input m2 out Bt L H (b * H + h))
  ∧ (∀ (input : ℕ → ℚ) (m : ℕ → ℤ) (out : ℕ → ℚ) (Bt L H b h : ℕ),
        (∀ s, s < L → m (b * L + s) ≠ 1) → b < Bt → h < H →
        MeanPooling input m out Bt L H (b * H + h) = 0) := by
  constructor
  · intro input m1 m2 out Bt L H b h hiff hb hh
    rw [meanPooling_apply input m1 out Bt L H b h hb hh,
        meanPooling_apply input m2 out Bt L H b h hb hh,
        meanPoolVal_eq, meanPoolVal_eq]
    have hfe : ((List.range L).filter fun s => decide (m1 (b * L + s) = 1))
        = ((List.range L).filter fun s => decide (m2 (b * L + s) = 1)) :=
      List.filter_congr fun s _ => decide_eq_decide.mpr (hiff (b * L + s))
    rw [hfe]
  · intro input m out Bt L H b h hne hb hh
    rw [meanPooling_apply input m out Bt L H b h hb hh, meanPoolVal_eq]
    have hfil : ((List.range L).filter fun s => decide (m (b * L + s) = 1)) = [] := by
      refine List.filter_eq_nil_iff.mpr ?_
      intro s hs
      rw [List.mem_range] at hs
      simp [hne s hs]
    rw [hfil]
    simp

theorem meanPooling_mask_strict_one_witness :
    (∀ j, wildMask j = 1 ↔ zeroMask j = 1)
  ∧ 0 < 1
  ∧ MeanPooling poolInput wildMask (fun _ => 0) 1 2 1 (0 * 1 + 0)
      = MeanPooling poolInput zeroMask (fun _ => 0) 1 2 1 (0 * 1 + 0) :=
  ⟨by intro j; unfold wildMask zeroMask; split_ifs <;> norm_num,
   by norm_num,
   meanPooling_mask_strict_one.1 poolInput wildMask zeroMask (fun _ => 0) 1 2 1 0 0
     (by intro j; unfold wildMask zeroMask; split_ifs <;> norm_num)
     (by norm_num) (by norm_num)⟩

/-! Bookkeeping facts about `cudaMalloc` / `cudaFree`. -/

lemma cudaMalloc_fail {st : CudaState} {s : ℕ} (h : st.allocFail st.allocCount = true) :
    cudaMalloc st s = (none, { st with allocCount := st.allocCount + 1 }) := by
  simp [cudaMalloc, h]

lemma cudaMalloc_succ {st : CudaState} {s : ℕ} (h : st.allocFail st.allocCount = false) :
    cudaMalloc st s =
      (some st.nextId,
       { st with buffers := (st.nextId, s) :: st.buffers,
                 nextId := st.nextId + 1,
                 allocCount := st.allocCount + 1 }) := by
  simp [cudaMalloc, h]

/-- Freeing an id at or above the well-formedness bound leaves a buffer
list untouched. -/
lemma filter_keep {l : List (ℕ × ℕ)} {bound : ℕ} (hWF : ∀ b ∈ l, b.1 < bound)
    (j : ℕ) (hj : bound ≤ j) : l.filter (fun b => b.1 != j) = l := by
  refine List.filter_eq_self.mpr ?_
  intro b hb
  have hlt := hWF b hb
  simp only [bne_iff_ne, ne_eq, decide_eq_true_eq]
  omega

lemma filter_drop (id s : ℕ) (l : List (ℕ × ℕ)) :
    ((id, s) :: l).filter (fun b => b.1 != id) = l.filter (fun b => b.1 != id) := by
  simp [List.filter_cons]

lemma filter_skip {a : ℕ} (s : ℕ) (l : List (ℕ × ℕ)) {id : ℕ} (h : a ≠ id) :
    ((a, s) :: l).filter (fun b => b.1 != id) = (a, s) :: l.filter (fun b => b.1 != id) := by
  simp [List.filter_cons, h]

/-- Three allocations followed by frees of all three returned pointers
(in allocation order) restore the original buffer list, whichever of the
allocations fail. -/
lemma malloc3_free3 (st : CudaState) (hWF : WFState st) (s1 s2 s3 : ℕ) :
    (cudaFree (cudaFree (cudaFree (cudaMalloc (cudaMalloc (cudaMalloc st s1).2 s2).2 s3).2
        (cudaMalloc st s1).1) (cudaMalloc (cudaMalloc st s1).2 s2).1)
        (cudaMalloc (cudaMalloc (cudaMalloc st s1).2 s2).2 s3).1).buffers = st.buffers := by
  by_cases h1 : st.allocFail st.allocCount
  · by_cases h2 : st.allocFail (st.allocCount + 1)
    · by_cases h3 : st.allocFail (st.allocCount + 2)
      · simp [cudaMalloc, cudaFree, h1, h2, h3]
      · simp only [cudaMalloc, cudaFree, h1, h2, h3, if_true, if_false, Bool.false_eq_true]
        rw [filter_drop st.nextId s3 st.buffers]
        exact filter_keep hWF st.nextId (le_refl _)
    · by_cases h3 : st.allocFail (st.allocCount + 2)
      · simp only [cudaMalloc, cudaFree, h1, h2, h3, if_true, if_false, Bool.false_eq_true]
        rw [filter_drop st.nextId s2 st.buffers]
        exact filter_keep hWF st.nextId (le_refl _)
      · simp only [cudaMalloc, cudaFree, h1, h2, h3, if_true, if_false, Bool.false_eq_true]
        rw [filter_skip s3 ((st.nextId, s2) :: st.buffers)
              (show st.nextId + 1 ≠ st.nextId by omega),
            filter_drop st.nextId s2 st.buffers,
            filter_keep hWF st.nextId (le_refl _),
            filter_drop (st.nextId + 1) s3 st.buffers]
        exact filter_keep hWF (st.nextId + 1) (by omega)
  · by_cases h2 : st.allocFail (st.allocCount + 1)
    · by_cases h3 : st.allocFail (st.allocCount + 2)
      · simp only [cudaMalloc, cudaFree, h1, h2, h3, if_true, if_false, Bool.false_eq_true]
        rw [filter_drop st.nextId s1 st.buffers]
        exact filter_keep hWF st.nextId (le_refl _)
      · simp only [cudaMalloc, cudaFree, h1, h2, h3, if_true, if_false, Bool.false_eq_true]
        rw [filter_skip s3 ((st.nextId, s1) :: st.buffers)
              (show st.nextId + 1 ≠ st.nextId by omega),
            filter_drop st.nextId s1 st.buffers,
            filter_keep hWF st.nextId (le_refl _),
            filter_drop (st.nextId + 1) s3 st.buffers]
        exact filter_keep hWF (st.nextId + 1) (by omega)
    · by_cases h3 : st.allocFail (st.allocCount + 2)
      · simp only [cudaMalloc, cudaFree, h1, h2, h3, if_true, if_false, Bool.false_eq_true]
        rw [filter_skip s2 ((st.nextId, s1) :: st.buffers)
              (show st.nextId + 1 ≠ st.nextId by omega),
            filter_drop st.nextId s1 st.buffers,
            filter_keep hWF st.nextId (le_refl _),
            filter_drop (st.nextId + 1) s2 st.buffers]
        exact filter_keep hWF (st.nextId + 1) (by omega)
      · simp only [cudaMalloc, cudaFree, h1, h2, h3, if_true, if_false, Bool.false_eq_true]
        rw [filter_skip s3 ((st.nextId + 1, s2) :: (st.nextId, s1) :: st.buffers)
              (show st.nextId + 2 ≠ st.nextId by omega),
            filter_skip s2 ((st.nextId, s1) :: st.buffers)
              (show st.nextId + 1 ≠ st.nextId by omega),
            filter_drop st.nextId s1 st.buffers,
            filter_keep hWF st.nextId (le_refl _),
            filter_skip s3 ((st.nextId + 1, s2) :: st.buffers)
              (show st.nextId + 2 ≠ st.nextId + 1 by omega),
            filter_drop (st.nextId + 1) s2 st.buffers,
            filter_keep hWF (st.nextId + 1) (by omega),
            filter_drop (st.nextId + 2) s3 st.buffers]
        exact filter_keep hWF (st.nextId + 2) (by omega)

/-- Two allocations followed by frees of both returned pointers restore
the original buffer list, whichever of the allocations fail. -/
lemma malloc2_free2 (st : CudaState) (hWF : WFState st) (s1 s2 : ℕ) :
    (cudaFree (cudaFree (cudaMalloc (cudaMalloc st s1).2 s2).2
        (cudaMalloc st s1).1) (cudaMalloc (cudaMalloc st s1).2 s2).1).buffers = st.buffers := by
  by_cases h1 : st.allocFail st.allocCount
  · by_cases h2 : st.allocFail (st.allocCount + 1)
    · simp [cudaMalloc, cudaFree, h1, h2]
    · simp only [cudaMalloc, cudaFree, h1, h2, if_true, if_false, Bool.false_eq_true]
      rw [filter_drop st.nextId s2 st.buffers]
      exact filter_keep hWF st.nextId (le_refl _)
  · by_cases h2 : st.allocFail (st.allocCount + 1)
    · simp only [cudaMalloc, cudaFree, h1, h2, if_true, if_false, Bool.false_eq_true]
      rw [filter_drop st.nextId s1 st.buffers]
      exact filter_keep hWF st.nextId (le_refl _)
    · simp only [cudaMalloc, cudaFree, h1, h2, if_true, if_false, Bool.false_eq_true]
      rw [filter_skip s2 ((st.nextId, s1) :: st.buffers)
            (show st.nextId + 1 ≠ st.nextId by omega),
          filter_drop st.nextId s1 st.buffers,
          filter_keep hWF st.nextId (le_refl _),
          filter_drop (st.nextId + 1) s2 st.buffers]
      exact filter_keep hWF (st.nextId + 1) (by omega)

/-! Buffer balance and dispatch behaviour of each entry point. -/

lemma computeTensorOpRes_buffers (n : ℕ) (e : ℚ) (m : Option TensorMetrics)
    (st : CudaState) (hWF : WFState st) :
    (ComputeTensorOpRes n e m st).st.buffers = st.buffers := by
  by_cases h1 : st.allocFail st.allocCount
  · simp [ComputeTensorOpRes, cudaMalloc, cudaFree, h1]
  · by_cases h2 : st.allocFail (st.allocCount + 1)
    · simp only [ComputeTensorOpRes, cudaMalloc, cudaFree, h1, h2, if_true, if_false,
        Bool.false_eq_true]
      rw [filter_drop st.nextId (n * 4) st.buffers]
      exact filter_keep hWF st.nextId (le_refl _)
    · by_cases h3 : st.allocFail (st.allocCount + 2)
      · simp only [ComputeTensorOpRes, cudaMalloc, cudaFree, h1, h2, h3, if_true, if_false,
          Bool.false_eq_true]
        rw [filter_skip (n * 4) ((st.nextId, n * 4) :: st.buffers)
              (show st.nextId + 1 ≠ st.nextId by omega),
            filter_drop st.nextId (n * 4) st.buffers,
            filter_keep hWF st.nextId (le_refl _),
            filter_drop (st.nextId + 1) (n * 4) st.buffers]
        exact filter_keep hWF (st.nextId + 1) (by omega)
      · simp only [ComputeTensorOpRes, cudaMalloc, cudaFree, h1, h2, h3, if_true, if_false,
          Bool.false_eq_true]
        rw [filter_skip (n * 4) ((st.nextId + 1, n * 4) :: (st.nextId, n * 4) :: st.buffers)
              (show st.nextId + 2 ≠ st.nextId by omega),
            filter_skip (n * 4) ((st.nextId, n * 4) :: st.buffers)
              (show st.nextId + 1 ≠ st.nextId by omega),
            filter_drop st.nextId (n * 4) st.buffers,
            filter_keep hWF st.nextId (le_refl _),
            filter_skip (n * 4) ((st.nextId + 1, n * 4) :: st.buffers)
              (show st.nextId + 2 ≠ st.nextId + 1 by omega),
            filter_drop (st.nextId + 1) (n * 4) st.buffers,
            filter_keep hWF (st.nextId + 1) (by omega),
            filter_drop (st.nextId + 2) (n * 4) st.buffers]
        exact filter_keep hWF (st.nextId + 2) (by omega)

lemma matrixMultiplyRes_buffers (M N K : ℕ) (e : ℚ) (m : Option TensorMetrics)
    (st : CudaState) (hWF : WFState st) :
    (MatrixMultiplyRes M N K e m st).st.buffers = st.buffers := by
  simp only [MatrixMultiplyRes]
  exact malloc3_free3 st hWF (M * K * 4) (K * N * 4) (M * N * 4)

lemma meanPoolingRes_buffers (Bt L H : ℕ) (e : ℚ) (m : Option TensorMetrics)
    (st : CudaState) (hWF : WFState st) :
    (MeanPoolingRes Bt L H e m st).st.buffers = st.buffers := by
  simp only [MeanPoolingRes]
  exact malloc3_free3 st hWF (Bt * L * H * 4) (Bt * L * 8) (Bt * H * 4)

lemma reluActivationRes_buffers (n : ℕ) (e : ℚ) (m : Option TensorMetrics)
    (st : CudaState) (hWF : WFState st) :
    (ReluActivationRes n e m st).st.buffers = st.buffers := by
  simp only [ReluActivationRes]
  exact malloc2_free2 st hWF (n * 4) (n * 4)

lemma computeTensorOpRes_noLaunch (n : ℕ) (e : ℚ) (m : Option TensorMetrics)
    (st : CudaState)
    (h : st.allocFail st.allocCount = true ∨ st.allocFail (st.allocCount + 1) = true
      ∨ st.allocFail (st.allocCount + 2) = true) :
    (ComputeTensorOpRes n e m st).kernelLaunched = false := by
  by_cases h1 : st.allocFail st.allocCount
  · simp [ComputeTensorOpRes, cudaMalloc, h1]
  · by_cases h2 : st.allocFail (st.allocCount + 1)
    · simp [ComputeTensorOpRes, cudaMalloc, h1, h2]
    · by_cases h3 : st.allocFail (st.allocCount + 2)
      · simp [ComputeTensorOpRes, cudaMalloc, h1, h2, h3]
      · simp only [h1, h2, h3] at h
        rcases h with h | h | h <;> exact absurd h (by simp)

/-! Metrics behaviour of each entry point. -/

/-- The `cudaMemGetInfo` sample taken while three freshly allocated
buffers are live reports the previous usage plus their sizes. -/
lemma memoryUsageMB_after3 (st : CudaState) (s1 s2 s3 : ℕ)
    (hA0 : st.allocFail st.allocCount = false)
    (hA1 : st.allocFail (st.allocCount + 1) = false)
    (hA2 : st.allocFail (st.allocCount + 2) = false)
    (hcap : usedBytes st + s1 + s2 + s3 ≤ st.totalBytes) :
    memoryUsageMB (cudaMalloc (cudaMalloc (cudaMalloc st s1).2 s2).2 s3).2
      = ((usedBytes st + s1 + s2 + s3 : ℕ) : ℚ) / 1024 / 1024 := by
  have hle : s3 + (s2 + (s1 + (st.buffers.map Prod.snd).sum)) ≤ st.totalBytes := by
    simp only [usedBytes] at hcap
    omega
  simp only [cudaMalloc, hA0, hA1, hA2, Bool.false_eq_true, if_false]
  simp only [memoryUsageMB, usedBytes, List.map_cons, List.sum_cons]
  rw [Nat.sub_sub_self hle]
  push_cast
  ring

/-- The `cudaMemGetInfo` sample taken while two freshly allocated
buffers are live reports the previous usage plus their sizes. -/
lemma memoryUsageMB_after2 (st : CudaState) (s1 s2 : ℕ)
    (hA0 : st.allocFail st.allocCount = false)
    (hA1 : st.allocFail (st.allocCount + 1) = false)
    (hcap : usedBytes st + s1 + s2 ≤ st.totalBytes) :
    memoryUsageMB (cudaMalloc (cudaMalloc st s1).2 s2).2
      = ((usedBytes st + s1 + s2 : ℕ) : ℚ) / 1024 / 1024 := by
  have hle : s2 + (s1 + (st.buffers.map Prod.snd).sum) ≤ st.totalBytes := by
    simp only [usedBytes] at hcap
    omega
  simp only [cudaMalloc, hA0, hA1, Bool.false_eq_true, if_false]
  simp only [memoryUsageMB, usedBytes, List.map_cons, List.sum_cons]
  rw [Nat.sub_sub_self hle]
  push_cast
  ring

lemma computeTensorOpRes_metrics (n : ℕ) (e : ℚ) (m : TensorMetrics) (st : CudaState)
    (hA0 : st.allocFail st.allocCount = false)
    (hA1 : st.allocFail (st.allocCount + 1) = false)
    (hA2 : st.allocFail (st.allocCount + 2) = false)
    (hcap : usedBytes st + n * 4 + n * 4 + n * 4 ≤ st.totalBytes) :
    (ComputeTensorOpRes n e (some m) st).metrics
      = some ⟨e, ((usedBytes st + n * 4 + n * 4 + n * 4 : ℕ) : ℚ) / 1024 / 1024, 1⟩ := by
  have hmb := memoryUsageMB_after3 st (n * 4) (n * 4) (n * 4) hA0 hA1 hA2 hcap
  simp only [cudaMalloc, hA0, hA1, hA2, Bool.false_eq_true, if_false] at hmb
  simp [ComputeTensorOpRes, cudaMalloc, hA0, hA1, hA2, hmb]

lemma matrixMultiplyRes_metrics (M N K : ℕ) (e : ℚ) (m : TensorMetrics) (st : CudaState)
    (hA0 : st.allocFail st.allocCount = false)
    (hA1 : st.allocFail (st.allocCount + 1) = false)
    (hA2 : st.allocFail (st.allocCount + 2) = false)
    (hcap : usedBytes st + M * K * 4 + K * N * 4 + M * N * 4 ≤ st.totalBytes) :
    (MatrixMultiplyRes M N K e (some m) st).metrics
      = some ⟨e, ((usedBytes st + M * K * 4 + K * N * 4 + M * N * 4 : ℕ) : ℚ) / 1024 / 1024, 1⟩ := by
  have hmb := memoryUsageMB_after3 st (M * K * 4) (K * N * 4) (M * N * 4) hA0 hA1 hA2 hcap
  simp only [cudaMalloc, hA0, hA1, hA2, Bool.false_eq_true, if_false] at hmb
  simp [MatrixMultiplyRes, cudaMalloc, hA0, hA1, hA2, hmb]

lemma meanPoolingRes_metrics (Bt L H : ℕ) (e : ℚ) (m : TensorMetrics) (st : CudaState)
    (hA0 : st.allocFail st.allocCount = false)
    (hA1 : st.allocFail (st.allocCount + 1) = false)
    (hA2 : st.allocFail (st.allocCount + 2) = false)
    (hcap : usedBytes st + Bt * L * H * 4 + Bt * L * 8 + Bt * H * 4 ≤ st.totalBytes) :
    (MeanPoolingRes Bt L H e (some m) st).metrics
      = some ⟨e, ((usedBytes st + Bt * L * H * 4 + Bt * L * 8 + Bt * H * 4 : ℕ) : ℚ) / 1024 / 1024, 1⟩ := by
  have hmb := memoryUsageMB_after3 st (Bt * L * H * 4) (Bt * L * 8) (Bt * H * 4) hA0 hA1 hA2 hcap
  simp only [cudaMalloc, hA0, hA1, hA2, Bool.false_eq_true, if_false] at hmb
  simp [MeanPoolingRes, cudaMalloc, hA0, hA1, hA2, hmb]

lemma reluActivationRes_metrics (n : ℕ) (e : ℚ) (m : TensorMetrics) (st : CudaState)
    (hA0 : st.allocFail st.allocCount = false)
    (hA1 : st.allocFail (st.allocCount + 1) = false)
    (hcap : usedBytes st + n * 4 + n * 4 ≤ st.totalBytes) :
    (ReluActivationRes n e (some m) st).metrics
      = some ⟨e, ((usedBytes st + n * 4 + n * 4 : ℕ) : ℚ) / 1024 / 1024, 1⟩ := by
  have hmb := memoryUsageMB_after2 st (n * 4) (n * 4) hA0 hA1 hcap
  simp only [cudaMalloc, hA0, hA1, Bool.false_eq_true, if_false] at hmb
  simp [ReluActivationRes, cudaMalloc, hA0, hA1, hmb]

/-! Claim theorems for the resource and metrics semantics. -/

/-- C1 (amended): every host-convenience operation frees, before
returning, every device buffer it allocated, on every allocation
outcome; but only `ComputeTensorOp` checks its allocations — it returns
before the dispatch when any of them fails, while `MatrixMultiply`,
`MeanPooling` and `ReluActivation` perform no check and always proceed
to the kernel dispatch. -/
theorem hostOps_buffer_discipline (st : CudaState) (hWF : WFState st)
    (n M N K Bt L H n2 : ℕ) (e : ℚ) (m : Option TensorMetrics) :
    (ComputeTensorOpRes n e m st).st.buffers = st.buffers
  ∧ (MatrixMultiplyRes M N K e m st).st.buffers = st.buffers
  ∧ (MeanPoolingRes Bt L H e m st).st.buffers = st.buffers
  ∧ (ReluActivationRes n2 e m st).st.buffers = st.buffers
  ∧ (st.allocFail st.allocCount = true ∨ st.allocFail (st.allocCount + 1) = true
      ∨ st.allocFail (st.allocCount + 2) = true →
      (ComputeTensorOpRes n e m st).kernelLaunched = false)
  ∧ (MatrixMultiplyRes M N K e m st).kernelLaunched = true
  ∧ (MeanPoolingRes Bt L H e m st).kernelLaunched = true
  ∧ (ReluActivationRes n2 e m st).kernelLaunched = true :=
  ⟨computeTensorOpRes_buffers n e m st hWF,
   matrixMultiplyRes_buffers M N K e m st hWF,
   meanPoolingRes_buffers Bt L H e m st hWF,
   reluActivationRes_buffers n2 e m st hWF,
   computeTensorOpRes_noLaunch n e m st,
   rfl, rfl, rfl⟩

/-- C1 counterexample: in `MatrixMultiply`, the second allocation fails
after the first succeeded, yet the operation performs no check and still
reaches the kernel dispatch instead of returning early. -/
theorem matrixMultiply_no_alloc_check_cex :
    stFail2nd.allocFail 0 = false ∧ stFail2nd.allocFail 1 = true
  ∧ (MatrixMultiplyRes 1 1 1 0 (some mZero) stFail2nd).kernelLaunched = true :=
  ⟨rfl, rfl, rfl⟩

theorem hostOps_buffer_discipline_witness :
    WFState stOK ∧ (ComputeTensorOpRes 1 0 none stOK).st.buffers = stOK.buffers :=
  ⟨by intro b hb; simp [stOK] at hb,
   (hostOps_buffer_discipline stOK (by intro b hb; simp [stOK] at hb)
      1 1 1 1 1 1 1 1 0 none).1⟩

/-- C7 (amended): `memory_usage_mb` is populated (with the sampled
device usage) by all four host-convenience operations — `ComputeTensorOp`,
`MatrixMultiply`, `MeanPooling` and `ReluActivation` — while the
device-resident variants and `ValidateTensorContent` leave it
unchanged. -/
theorem memory_usage_all_host_ops (st : CudaState) (m : TensorMetrics)
    (n M N K Bt L H n2 : ℕ) (e : ℚ)
    (hA : ∀ k, st.allocFail k = false)
    (hcap1 : usedBytes st + n * 4 + n * 4 + n * 4 ≤ st.totalBytes)
    (hcap2 : usedBytes st + M * K * 4 + K * N * 4 + M * N * 4 ≤ st.totalBytes)
    (hcap3 : usedBytes st + Bt * L * H * 4 + Bt * L * 8 + Bt * H * 4 ≤ st.totalBytes)
    (hcap4 : usedBytes st + n2 * 4 + n2 * 4 ≤ st.totalBytes) :
    (ComputeTensorOpRes n e (some m) st).metrics.map TensorMetrics.memory_usage_mb
      = some (((usedBytes st + n * 4 + n * 4 + n * 4 : ℕ) : ℚ) / 1024 / 1024)
  ∧ (MatrixMultiplyRes M N K e (some m) st).metrics.map TensorMetrics.memory_usage_mb
      = some (((usedBytes st + M * K * 4 + K * N * 4 + M * N * 4 : ℕ) : ℚ) / 1024 / 1024)
  ∧ (MeanPoolingRes Bt L H e (some m) st).metrics.map TensorMetrics.memory_usage_mb
      = some (((usedBytes st + Bt * L * H * 4 + Bt * L * 8 + Bt * H * 4 : ℕ) : ℚ) / 1024 / 1024)
  ∧ (ReluActivationRes n2 e (some m) st).metrics.map TensorMetrics.memory_usage_mb
      = some (((usedBytes st + n2 * 4 + n2 * 4 : ℕ) : ℚ) / 1024 / 1024)
  ∧ (MatrixMultiply_GPURes M N K e (some m) st).metrics.map TensorMetrics.memory_usage_mb
      = some m.memory_usage_mb
  ∧ (MeanPooling_GPURes Bt L H e (some m) st).metrics.map TensorMetrics.memory_usage_mb
      = some m.memory_usage_mb
  ∧ (ReluActivation_GPURes n2 e (some m) st).metrics.map TensorMetrics.memory_usage_mb
      = some m.memory_usage_mb
  ∧ (ValidateTensorContentRes (fun _ => 0) n2 0 (some m) st).2.2.map
        TensorMetrics.memory_usage_mb
      = some m.memory_usage_mb := by
  refine ⟨?_, ?_, ?_, ?_, rfl, rfl, rfl, ?_⟩
  · rw [computeTensorOpRes_metrics n e m st (hA _) (hA _) (hA _) hcap1]
    rfl
  · rw [matrixMultiplyRes_metrics M N K e m st (hA _) (hA _) (hA _) hcap2]
    rfl
  · rw [meanPoolingRes_metrics Bt L H e m st (hA _) (hA _) (hA _) hcap3]
    rfl
  · rw [reluActivationRes_metrics n2 e m st (hA _) (hA _) hcap4]
    rfl
  · simp [ValidateTensorContentRes, cudaMalloc, hA st.allocCount]

/-- C7 counterexample: host-convenience `MeanPooling` overwrites
`memory_usage_mb` with the sampled usage (16 bytes live at the sample),
while the claim says it leaves the field unchanged. -/
theorem meanPooling_writes_memory_usage_cex :
    mZero.memory_usage_mb = 0
  ∧ (MeanPoolingRes 1 1 1 0 (some mZero) stOK).metrics.map TensorMetrics.memory_usage_mb
      = some (1 / 65536)
  ∧ (1 / 65536 : ℚ) ≠ 0 := by
  refine ⟨rfl, ?_, by norm_num⟩
  rw [meanPoolingRes_metrics 1 1 1 0 mZero stOK rfl rfl rfl (by decide)]
  norm_num [usedBytes, stOK]

theorem memory_usage_all_host_ops_witness :
    (∀ k, stOK.allocFail k = false)
  ∧ (MeanPoolingRes 1 1 1 0 (some mZero) stOK).metrics.map TensorMetrics.memory_usage_mb
      = some (((usedBytes stOK + 1 * 1 * 1 * 4 + 1 * 1 * 8 + 1 * 1 * 4 : ℕ) : ℚ) / 1024 / 1024) :=
  ⟨fun k => rfl,
   (memory_usage_all_host_ops stOK mZero 1 1 1 1 1 1 1 1 0 (fun k => rfl)
      (by decide) (by decide) (by decide) (by decide)).2.2.1⟩

/-- C8 (amended): every compute operation (host-convenience and
device-resident) overwrites `active_kernels` with the constant 1 on a
successful dispatch; only `ValidateTensorContent` increments it.  The
field is therefore a per-call assignment, not a cumulative counter, and
can decrease across calls. -/
theorem active_kernels_assignment (st : CudaState) (m : TensorMetrics)
    (n M N K Bt L H n2 : ℕ) (e : ℚ) (hA : ∀ k, st.allocFail k = false) :
    (ComputeTensorOpRes n e (some m) st).metrics.map TensorMetrics.active_kernels = some 1
  ∧ (MatrixMultiplyRes M N K e (some m) st).metrics.map TensorMetrics.active_kernels = some 1
  ∧ (MeanPoolingRes Bt L H e (some m) st).metrics.map TensorMetrics.active_kernels = some 1
  ∧ (ReluActivationRes n2 e (some m) st).metrics.map TensorMetrics.active_kernels = some 1
  ∧ (MatrixMultiply_GPURes M N K e (some m) st).metrics.map TensorMetrics.active_kernels = some 1
  ∧ (MeanPooling_GPURes Bt L H e (some m) st).metrics.map TensorMetrics.active_kernels = some 1
  ∧ (ReluActivation_GPURes n2 e (some m) st).metrics.map TensorMetrics.active_kernels = some 1
  ∧ (ValidateTensorContentRes (fun _ => 0) n2 0 (some m) st).2.2.map
        TensorMetrics.active_kernels
      = some (m.active_kernels + 1) := by
  refine ⟨?_, rfl, rfl, rfl, rfl, rfl, rfl, ?_⟩
  · simp [ComputeTensorOpRes, cudaMalloc, hA st.allocCount, hA (st.allocCount + 1),
      hA (st.allocCount + 2)]
  · simp [ValidateTensorContentRes, cudaMalloc, hA st.allocCount]

/-- C8 counterexample: a successful `ComputeTensorOp` call with prior
`active_kernels = 2` leaves the field at 1, which is not strictly
greater than the value before the call. -/
theorem active_kernels_not_monotone_cex :
    mTwo.active_kernels = 2
  ∧ (ComputeTensorOpRes 4 0 (some mTwo) stOK).metrics.map TensorMetrics.active_kernels = some 1
  ∧ ¬ ((1 : ℤ) > 2) := by
  refine ⟨rfl, ?_, by norm_num⟩
  simp [ComputeTensorOpRes, cudaMalloc, stOK]

theorem active_kernels_assignment_witness :
    (∀ k, stOK.allocFail k = false)
  ∧ (ValidateTensorContentRes (fun _ => 0) 1 0 (some mTwo) stOK).2.2.map
        TensorMetrics.active_kernels
      = some (mTwo.active_kernels + 1) :=
  ⟨fun k => rfl,
   (active_kernels_assignment stOK mTwo 1 1 1 1 1 1 1 1 0 (fun k => rfl)).2.2.2.2.2.2.2⟩

/-- C9 (amended): `ValidateTensorContent` returns the success code 1
whenever its single device allocation succeeds and -1 when it fails; its
return value never depends on the data contents or on the threshold. -/
theorem validate_return_independent (d : ℕ → ℚ) (n : ℕ) (t : ℚ)
    (m : Option TensorMetrics) (st : CudaState) :
    (st.allocFail st.allocCount = false → (ValidateTensorContentRes d n t m st).1 = 1)
  ∧ (st.allocFail st.allocCount = true → (ValidateTensorContentRes d n t m st).1 = -1)
  ∧ (∀ (d2 : ℕ → ℚ) (t2 : ℚ),
      (ValidateTensorContentRes d n t m st).1 = (ValidateTensorContentRes d2 n t2 m st).1) := by
  refine ⟨?_, ?_, ?_⟩
  · intro h; simp [ValidateTensorContentRes, cudaMalloc, h]
  · intro h; simp [ValidateTensorContentRes, cudaMalloc, h]
  · intro d2 t2; rfl

/-- C9 counterexample: with the allocation failing,
`ValidateTensorContent` returns -1, not the fixed success code. -/
theorem validate_returns_error_cex :
    (ValidateTensorContentRes (fun _ => 0) 1 0 (some mZero) stAllFail).1 = -1
  ∧ (ValidateTensorContentRes (fun _ => 0) 1 0 (some mZero) stAllFail).1 ≠ 1 := by
  constructor <;> simp [ValidateTensorContentRes, cudaMalloc, stAllFail]

theorem validate_return_independent_witness :
    stOK.allocFail stOK.allocCount = false
  ∧ (ValidateTensorContentRes (fun _ => 5) 3 (7 / 10) (some mZero) stOK).1 = 1 :=
  ⟨rfl, (validate_return_independent (fun _ => 5) 3 (7 / 10) (some mZero) stOK).1 rfl⟩

end AspireTensor
